import Mathlib

set_option linter.unusedVariables false
set_option maxRecDepth 8192

namespace Witchat

/-! Verification development for the Witchat socket server.

The definitions below are a shallow embedding of `socket-server.js` (the
standalone Socket.io server, served in the repository as the unnamed file
`part_006`) and `lib/moderation.js`.  JavaScript strings are modelled as
`List Char` (UTF-16 niceties only matter below for ASCII data, where code
units and characters coincide); machine time (`Date.now()`) is a `Nat`
parameter; the external `sentiment` lexicon is an explicit function
parameter; JS `Map`/`Set` objects are association lists / lists with
insertion order preserved, matching Map iteration semantics.  Fractional
arithmetic (energy penalty, mood thresholds, ghost fade) is modelled over
`Rat`; the double-rounding of the JS literals `0.6`, `0.4`, `0.8` is not
modelled (no claim below depends on a mood/fade value). -/

abbrev Str := List Char

/-- JS whitespace test used for `trim`, `\s` and `[^\s]`.  `Char.isWhitespace`
covers space, tab, CR, LF; JS additionally strips some exotic whitespace,
which is immaterial below (every use is followed by a filter that removes
those characters anyway, or applied to ASCII data). -/
def isJsSpace (c : Char) : Bool := c.isWhitespace

/-- JS `String.prototype.trim`. -/
def jsTrim (s : Str) : Str := ((s.dropWhile isJsSpace).reverse.dropWhile isJsSpace).reverse

/-- JS `String.prototype.toLowerCase` (ASCII; non-ASCII case mappings are
removed by the `[^a-z0-9-]` filter at the only use site). -/
def jsToLower (s : Str) : Str := s.map Char.toLower

/-- The character class `[a-z0-9-]` of the room-id normalizer. -/
def isRoomChar (c : Char) : Bool := c.isLower || c.isDigit || c == '-'

def DEFAULT_ROOM_ID : Str := "main".data

/-- `getRoomId` (socket-server part_006 lines 75-80):
`roomIdOrSlug.toLowerCase().trim().replace(/[^a-z0-9-]/g, "").slice(0, 32)`,
with the default id for missing / non-string / falsy / fully-stripped input.
`none` models a missing or non-string argument; the JS falsy check on `""`
yields the same result as the empty-normalization branch. -/
def getRoomId : Option Str → Str
  | none => DEFAULT_ROOM_ID
  | some s =>
    let normalized := ((jsTrim (jsToLower s)).filter isRoomChar).take 32
    if normalized = [] then DEFAULT_ROOM_ID else normalized

/-! Moderation pipeline (`lib/moderation.js`). -/

/-- `BIGOTRY_TERMS` verbatim, in source order (alternation order matters). -/
def BIGOTRY_TERMS : List Str :=
  ["nigger", "nigga", "n1gger", "n1gga", "nigg3r", "nigg4",
   "chink", "ch1nk",
   "spic", "sp1c", "spick",
   "wetback",
   "kike", "k1ke",
   "gook",
   "raghead", "towelhead",
   "beaner",
   "coon",
   "darkie",
   "jigaboo",
   "porch monkey",
   "jungle bunny",
   "sand nigger",
   "faggot", "fag", "f4ggot", "f4g", "fagg0t",
   "dyke", "d1ke", "dyk3",
   "tranny", "tr4nny",
   "shemale", "she-male",
   "retard", "retarded", "r3tard",
   "tard"].map String.data

/-- The optional suffix group `(s|ed|ing|er|ers)?` of `BIGOTRY_REGEX`: the
five alternatives in regex order, then the empty string for the absent
(greedy `?`) case. -/
def SUFFIX_ALTS : List Str := (["s", "ed", "ing", "er", "ers"].map String.data) ++ [[]]

/-- JS regex `\w` / word-boundary character class `[A-Za-z0-9_]`. -/
def isWordChar (c : Char) : Bool := c.isAlphanum || c == '_'

/-- Case-insensitive literal prefix match (the pattern is lowercase). -/
def ciPrefix : Str → Str → Bool
  | [], _ => true
  | _ :: _, [] => false
  | p :: ps, c :: cs => (c.toLower == p) && ciPrefix ps cs

/-- Word boundary `\b` after a match ending in a word character. -/
def boundaryAfter : Str → Bool
  | [] => true
  | c :: _ => !isWordChar c

/-- One alternative of `BIGOTRY_REGEX` at the current position: the literal
term, then the suffix alternatives in backtracking order, each checked
against the trailing `\b`. -/
def tryTerm (term : Str) (s : Str) : Option Nat :=
  if ciPrefix term s then
    let rest := s.drop term.length
    SUFFIX_ALTS.findSome? fun suf =>
      if ciPrefix suf rest && boundaryAfter (rest.drop suf.length) then
        some (term.length + suf.length)
      else none
  else none

/-- `BIGOTRY_REGEX = \b(term1|...|termN)(s|ed|ing|er|ers)?\b` attempted at
the head of `s`; `prev` is the character before the position (for the
leading `\b`; every term starts with a word character).  Returns the match
length (always positive: every term is nonempty). -/
def bigMatchLen (prev : Option Char) (s : Str) : Option Nat :=
  let boundaryBefore := match prev with | none => true | some c => !isWordChar c
  if boundaryBefore then BIGOTRY_TERMS.findSome? (fun t => tryTerm t s) else none

/-- Existence of a `BIGOTRY_REGEX` match anywhere in the text: the `found`
field of `detectBigotry` (`String.prototype.match` with `g` ignores and
resets `lastIndex`, so this is stateless). -/
def bigFound : Option Char → Str → Bool
  | _, [] => false
  | prev, c :: rest => (bigMatchLen prev (c :: rest)).isSome || bigFound (some c) rest

def detectBigotryFound (text : Str) : Bool := bigFound none text

/-- `maskSlur`: keep the first character, replace the rest with `*`;
a word of length ≤ 1 becomes a single `*`. -/
def maskSlur : Str → Str
  | [] => ['*']
  | [_] => ['*']
  | c :: rest => c :: List.replicate rest.length '*'

/-- The global-replace scan of `maskBigotry`: each (nonempty, non-overlapping,
leftmost) `BIGOTRY_REGEX` match is replaced by `maskSlur` of the matched
text; scanning resumes after the match over the original text.  A match at
the head of a nonempty string has length `n ≥ 1` and begins with the head
character, so it is `c :: rest.take (n - 1)`.  The `fuel` argument (the
remaining length suffices, since every step consumes at least one
character) makes the recursion structural. -/
def maskScanF : Nat → Option Char → Str → Str
  | 0, _, _ => []
  | _ + 1, _, [] => []
  | fuel + 1, prev, c :: rest =>
    match bigMatchLen prev (c :: rest) with
    | some n =>
      let matched := c :: rest.take (n - 1)
      maskSlur matched ++ maskScanF fuel matched.getLast? (rest.drop (n - 1))
    | none => c :: maskScanF fuel (some c) rest

def maskScan (prev : Option Char) (s : Str) : Str := maskScanF s.length prev s

def maskBigotry (text : Str) : Str := maskScan none text

/-- The TLD alternation of `URL_REGEX`, in source order. -/
def TLDS : List Str :=
  ["com", "org", "net", "io", "co", "gg", "me", "tv", "xyz", "app", "dev",
   "info", "biz", "us", "uk", "ca", "au", "de", "fr", "jp", "ru", "ch", "nl",
   "be", "it", "es", "pt", "pl", "se", "no", "fi", "dk", "at", "nz", "ie",
   "in", "br", "mx", "ar", "cl", "za", "kr", "cn", "tw", "hk", "sg", "my",
   "ph", "th", "vn", "id"].map String.data

/-- The character class `[a-zA-Z0-9-]` of the bare-domain alternative. -/
def isDomainChar (c : Char) : Bool := c.isAlpha || c.isDigit || c == '-'

/-- `https?:\/\/[^\s]+` at the current position.  The optional `s` needs no
backtracking: if `s` follows `http` but `://` does not follow it, the
`s`-less parse also fails (the next character is `s`, not `:`). -/
def urlAlt1 (s : Str) : Option Nat :=
  if ciPrefix "http".data s then
    let pre := if ciPrefix "s".data (s.drop 4) then 5 else 4
    let rest := s.drop pre
    if ciPrefix "://".data rest then
      let n := ((rest.drop 3).takeWhile (fun c => !isJsSpace c)).length
      if n = 0 then none else some (pre + 3 + n)
    else none
  else none

/-- `www\.[^\s]+` at the current position. -/
def urlAlt2 (s : Str) : Option Nat :=
  if ciPrefix "www.".data s then
    let n := ((s.drop 4).takeWhile (fun c => !isJsSpace c)).length
    if n = 0 then none else some (4 + n)
  else none

/-- `[a-zA-Z0-9-]+\.(com|org|…)[^\s]*` at the current position.  The greedy
leading class needs no length backtracking: every shorter split would place
a class character where the literal `.` is required.  The TLD alternation is
first-match (nothing after it can fail: `[^\s]*` always succeeds). -/
def urlAlt3 (s : Str) : Option Nat :=
  let run := (s.takeWhile isDomainChar).length
  if run = 0 then none
  else
    match s.drop run with
    | '.' :: afterDot =>
      match TLDS.findSome? (fun t => if ciPrefix t afterDot then some t.length else none) with
      | some tl => some (run + 1 + tl + ((afterDot.drop tl).takeWhile (fun c => !isJsSpace c)).length)
      | none => none
    | _ => none

/-- `URL_REGEX` alternation at one position, in source order. -/
def urlMatchAt (s : Str) : Option Nat :=
  match urlAlt1 s with
  | some n => some n
  | none =>
    match urlAlt2 s with
    | some n => some n
    | none => urlAlt3 s

/-- Left-to-right scan for the first `URL_REGEX` match; `i` is the absolute
position of the suffix `s` in the subject string. -/
def urlScanList (s : Str) (i : Nat) : Option (Nat × Nat) :=
  match urlMatchAt s with
  | some n => some (i, n)
  | none =>
    match s with
    | [] => none
    | _ :: rest => urlScanList rest (i + 1)

/-- JS `RegExp.prototype.test` on the module-level global (`g`) `URL_REGEX`:
the search starts at the persistent `lastIndex`; on success `lastIndex`
becomes the end of the match, on failure it is reset to `0`.  This statefulness
is shared by every call to `containsUrl` in the process. -/
def regexTestG (lastIndex : Nat) (s : Str) : Bool × Nat :=
  if s.length < lastIndex then (false, 0)
  else
    match urlScanList (s.drop lastIndex) lastIndex with
    | some (start, n) => (true, start + n)
    | none => (false, 0)

/-- `containsUrl` (moderation.js lines 59-61), with the regex `lastIndex`
state made explicit. -/
def containsUrlG (lastIndex : Nat) (text : Str) : Bool × Nat := regexTestG lastIndex text

structure ModResult where
  allowed : Bool
  reason : Option Str := none
  maskedText : Option Str := none
  isBigotry : Bool := false
deriving DecidableEq, Repr

/-- `moderate` (moderation.js lines 100-118), threading the `URL_REGEX`
`lastIndex` state. -/
def moderate (urlLastIndex : Nat) (text : Str) : ModResult × Nat :=
  let r := containsUrlG urlLastIndex text
  if r.1 then ({ allowed := false, reason := some "no-links".data }, r.2)
  else if detectBigotryFound text then
    ({ allowed := true, reason := some "bigotry".data,
       maskedText := some (maskBigotry text), isBigotry := true }, r.2)
  else ({ allowed := true }, r.2)

/-! Data model: messages, rooms, outbound emissions. -/

def MAX_MESSAGES : Nat := 3
def MAX_SENTIMENT_HISTORY : Nat := 5
def GHOST_DURATION_MS : Nat := 180000
def SIGILS : List Str := ["spiral", "eye", "triangle", "cross", "diamond"].map String.data

/-- A chat message as built by the message handler.  Non-moderated messages
carry no `flagged` property; that absence is modelled as `flagged = false`. -/
structure Msg where
  id : Str
  text : Str
  color : Str
  handle : Option Str
  tag : Option Str
  sigil : Option Str
  whisper : Bool
  ts : Nat
  flagged : Bool := false
deriving DecidableEq, Repr

/-- A presence ghost: a recently departed user's trace (part_006 lines 310-319). -/
structure PGhost where
  color : Str
  handle : Option Str
  leftAt : Nat
deriving DecidableEq, Repr

/-- Room state (part_006 lines 82-99). -/
structure Room where
  id : Str
  title : Str
  secret : Bool
  createdAt : Nat := 0
  messages : List Msg := []
  sentiment : List Rat := []
  lastActivity : Nat := 0
  lastMessageTs : Nat := 0
  silenceState : Bool := false
  presenceGhosts : List PGhost := []
deriving DecidableEq, Repr

/-- Emission target: `socket.emit` (the handling connection), `io.to(roomId).emit`
(room multicast), or `io.emit` (global). -/
inductive Target where
  | sender
  | room (id : Str)
  | allClients
deriving DecidableEq, Repr

structure GhostView where
  color : Str
  handle : Option Str
  fade : Rat
deriving DecidableEq, Repr

inductive Payload where
  | msgP (m : Msg)
  | reasonP (reason : Str)
  | rateLimitedP (event : Str) (reason : Option Str)
  | userBannedP (color : Str) (handle : Str) (reason : Str)
  | ghostsP (ms : List Msg)
  | roomJoinedP (id : Str) (title : Str) (secret : Bool)
  | moodP (mood : Str)
  | textP (t : Str)
  | presenceGhostsP (gs : List GhostView)
  | silenceP (settled : Bool) (since : Option Nat)
  | arrivalVibeP (presence : Nat) (mood : Str) (quietFor : Option Str) (hasGhosts : Bool)
  | identityP (color : Str) (handle : Option Str) (tag : Option Str) (sigil : Option Str)
  | roomDeletedP (id : Str)
  | roomListP (entries : List (Str × Str × Nat × Nat))
  | crosstalkEndedP (participants : Str × Str)
deriving DecidableEq, Repr

structure Emit where
  target : Target
  event : Str
  payload : Payload
deriving DecidableEq, Repr

/-! Sentiment and mood (part_006 lines 231-251, 619-650). -/

/-- `getMoodFromScore` with the thresholds `±0.4` as exact rationals. -/
def getMoodFromScore (avg : Rat) : Str :=
  if avg < -(2/5 : Rat) then "intense".data
  else if (2/5 : Rat) < avg then "calm".data
  else "neutral".data

/-- `computeCurrentMood` over a room's sentiment history. -/
def computeCurrentMood (hist : List Rat) : Str :=
  if hist = [] then "neutral".data
  else getMoodFromScore (hist.sum / (hist.length : Rat))

/-- `energyPenalty` (part_006 lines 237-244) with `0.6`, `0.25`, `0.8` as
exact rationals. -/
def energyPenalty (text : Str) : Rat :=
  if text = [] then 0
  else
    let letters := text.filter Char.isAlpha
    let caps := (text.filter Char.isUpper).length
    let exclam := (text.filter (fun c => c == '!')).length
    let mostlyCaps := 0 < letters.length ∧ (3/5 : Rat) < (caps : Rat) / (letters.length : Rat)
    (if mostlyCaps then (3/5 : Rat) else 0) + min ((exclam : Rat) * (1/4)) (4/5 : Rat)

/-- Bounded push: `arr.push(x); if (arr.length > cap) arr.shift();`. -/
def pushShift (cap : Nat) (l : List α) (x : α) : List α :=
  let l' := l ++ [x]
  if cap < l'.length then l'.drop 1 else l'

/-- JS `arr.slice(-n)`: the last `min n (length)` elements. -/
def jsSliceLast (n : Nat) (l : List α) : List α := l.drop (l.length - n)

/-- `cleanPresenceGhosts` + `getPresenceGhosts` (part_006 lines 300-332):
drop expired ghosts from the front, then compute fade levels. -/
def getPresenceGhosts (room : Room) (now : Nat) : List GhostView :=
  (room.presenceGhosts.dropWhile (fun g => GHOST_DURATION_MS < now - g.leftAt)).map
    (fun g => { color := g.color, handle := g.handle,
                fade := min 1 (((now - g.leftAt : Nat) : Rat) / (GHOST_DURATION_MS : Rat)) })

/-- The `quietFor` string of the arrival vibe (part_006 lines 365-371). -/
def quietForOf (room : Room) (now : Nat) : Option Str :=
  if room.lastActivity = 0 then none
  else
    let t := (now - room.lastActivity) / 1000
    some (if t < 60 then (Nat.repr t).data ++ "s".data
          else if t < 3600 then (Nat.repr (t / 60)).data ++ "m".data
          else (Nat.repr (t / 3600)).data ++ "h".data)

/-- `sendRoomState` (part_006 lines 350-378): the room-state snapshot emitted
to a connection that joins or switches into a room, in emission order.  The
second emission is the join-time ghosts snapshot:
`socket.emit("ghosts", room.messages.slice(-MAX_MESSAGES))`. -/
def sendRoomState (room : Room) (roomPresence : Nat) (now : Nat) : List Emit :=
  [ ⟨.sender, "room-joined".data, .roomJoinedP room.id room.title room.secret⟩,
    ⟨.sender, "ghosts".data, .ghostsP (jsSliceLast MAX_MESSAGES room.messages)⟩,
    ⟨.sender, "mood".data, .moodP (computeCurrentMood room.sentiment)⟩,
    ⟨.sender, "room-title".data, .textP room.title⟩,
    ⟨.sender, "presence-ghosts".data, .presenceGhostsP (getPresenceGhosts room now)⟩,
    ⟨.sender, "silence".data, .silenceP room.silenceState (some room.lastActivity)⟩,
    ⟨.sender, "arrival-vibe".data,
      .arrivalVibeP roomPresence (computeCurrentMood room.sentiment) (quietForOf room now)
        (0 < room.presenceGhosts.length)⟩ ]

/-! Input validation (part_006 lines 204-229). -/

/-- `^[a-zA-Z0-9 ]{1,32}$` on the trimmed, 32-capped handle. -/
def validateHandle (h : Option Str) : Option Str :=
  match h with
  | none => none
  | some s =>
    if s = [] then none
    else
      let t := (jsTrim s).take 32
      if 1 ≤ t.length ∧ t.length ≤ 32 ∧ t.all (fun c => c.isAlphanum || c == ' ') then some t
      else none

/-- `^[a-zA-Z0-9]{1,16}$` on the trimmed, 16-capped tag. -/
def validateTag (h : Option Str) : Option Str :=
  match h with
  | none => none
  | some s =>
    if s = [] then none
    else
      let t := (jsTrim s).take 16
      if 1 ≤ t.length ∧ t.length ≤ 16 ∧ t.all Char.isAlphanum then some t
      else none

/-- Membership in the fixed `SIGILS` list. -/
def validateSigil (h : Option Str) : Option Str :=
  match h with
  | none => none
  | some s => if s = [] then none else if s ∈ SIGILS then some s else none

/-! Rate limiting (part_006 lines 157-198). -/

/-- The four per-category limits of `RATE_LIMITS` (`total` is tracked
separately in the bucket). -/
inductive RLCat where
  | message
  | typing
  | join
  | createRoom
deriving DecidableEq, Repr

def RLmax : RLCat → Nat
  | .message => 15
  | .typing => 10
  | .join => 5
  | .createRoom => 3

def RLwindowMs : RLCat → Nat
  | .message => 10000
  | .typing => 1000
  | .join => 10000
  | .createRoom => 60000

def TOTAL_MAX : Nat := 200
def TOTAL_WINDOW_MS : Nat := 60000

/-- A connection's rate-limit bucket: per-category timestamp lists plus the
cross-category `total` list. -/
structure Bucket where
  message : List Nat := []
  typing : List Nat := []
  join : List Nat := []
  createRoom : List Nat := []
  total : List Nat := []
deriving DecidableEq, Repr

def Bucket.get : Bucket → RLCat → List Nat
  | b, .message => b.message
  | b, .typing => b.typing
  | b, .join => b.join
  | b, .createRoom => b.createRoom

def Bucket.set : Bucket → RLCat → List Nat → Bucket
  | b, .message, l => { b with message := l }
  | b, .typing, l => { b with typing := l }
  | b, .join, l => { b with join := l }
  | b, .createRoom, l => { b with createRoom := l }

/-- `now - ts < windowMs` (truncated `Nat` subtraction agrees with the JS
real-number comparison: a future timestamp is kept in both). -/
def inWindow (now windowMs ts : Nat) : Bool := now - ts < windowMs

structure RLResult where
  allowed : Bool
  reason : Option Str := none
  remaining : Option Nat := none
deriving DecidableEq, Repr

/-- `checkRateLimit` (part_006 lines 174-198): purge the event category and
the total window, test the total abuse cap, then the category cap; only an
allowed event is recorded. -/
def checkRateLimit (b : Bucket) (cat : RLCat) (now : Nat) : RLResult × Bucket :=
  let catList := (b.get cat).filter (inWindow now (RLwindowMs cat))
  let totList := b.total.filter (inWindow now TOTAL_WINDOW_MS)
  let b1 := { b.set cat catList with total := totList }
  if TOTAL_MAX ≤ totList.length then
    ({ allowed := false, reason := some "abuse".data, remaining := some 0 }, b1)
  else if RLmax cat ≤ catList.length then
    ({ allowed := false, reason := some "rate-limited".data, remaining := some 0 }, b1)
  else
    ({ allowed := true, remaining := some (RLmax cat - (catList.length + 1)) },
     { b1.set cat (catList ++ [now]) with total := totList ++ [now] })

/-! The rate-limit prologue of each rate-limited inbound event handler. -/

/-- The rate-limited inbound wire events.  `dm-typing` reuses the `typing`
bucket (part_006 line 1053). -/
inductive WireCat where
  | message
  | typing
  | join
  | createRoom
  | dmTyping
deriving DecidableEq, Repr

def rlCatOf : WireCat → RLCat
  | .message => .message
  | .typing => .typing
  | .join => .join
  | .createRoom => .createRoom
  | .dmTyping => .typing

structure RLGate where
  allowed : Bool
  reason : Option Str
  emits : List Emit
  disconnected : Bool
deriving DecidableEq, Repr

/-- How each handler reacts to its `checkRateLimit` call (part_006 lines
478-487, 549-558, 694-702, 833-838, 1052-1054): `message` and `join` notify
the sender and disconnect on `"abuse"`; `typing` silently disconnects on
`"abuse"`; `create-room` denies with a fixed notice and never disconnects;
`dm-typing` silently drops and never disconnects. -/
def handlerRateGate (w : WireCat) (b : Bucket) (now : Nat) : RLGate × Bucket :=
  let rcb := checkRateLimit b (rlCatOf w) now
  let rc := rcb.1
  let b' := rcb.2
  if rc.allowed then ({ allowed := true, reason := none, emits := [], disconnected := false }, b')
  else
    match w with
    | .message =>
      ({ allowed := false, reason := rc.reason,
         emits := [⟨.sender, "rate-limited".data, .rateLimitedP "message".data rc.reason⟩],
         disconnected := rc.reason == some "abuse".data }, b')
    | .typing =>
      ({ allowed := false, reason := rc.reason, emits := [],
         disconnected := rc.reason == some "abuse".data }, b')
    | .join =>
      ({ allowed := false, reason := rc.reason,
         emits := [⟨.sender, "rate-limited".data, .rateLimitedP "join".data rc.reason⟩],
         disconnected := rc.reason == some "abuse".data }, b')
    | .createRoom =>
      ({ allowed := false, reason := rc.reason,
         emits := [⟨.sender, "room-create-failed".data,
                    .reasonP "Too many room creations. Please wait.".data⟩],
         disconnected := false }, b')
    | .dmTyping =>
      ({ allowed := false, reason := rc.reason, emits := [], disconnected := false }, b')

/-! The `message` event handler (part_006 lines 548-651) and the banned-IP
connection gate (part_006 lines 464-473). -/

/-- The per-connection identity the handlers read from the socket.
`color` is set at join; the JS `|| "#7b5278"` fallbacks are modelled on the
empty string. -/
structure MsgCtx where
  ip : Str
  color : Str
  handle : Option Str
  tag : Option Str
  sigil : Option Str
deriving DecidableEq, Repr

/-- The mutable server state the message handler touches: the connection's
rate-limit bucket, the module-wide `URL_REGEX.lastIndex`, the banned-IP set,
and the sender's room. -/
structure MsgSt where
  bucket : Bucket
  urlLastIndex : Nat
  bannedIPs : List Str
  room : Room
deriving DecidableEq, Repr

structure MsgOut where
  emits : List Emit
  disconnected : Bool
  st : MsgSt
deriving DecidableEq, Repr

/-- `socket.userColor || "#7b5278"`. -/
def colorOr (c : Str) : Str := if c = [] then "#7b5278".data else c

/-- Message id format from the handler, the random tail passed in. -/
def msgId (now : Nat) (rand : Str) : Str := (Nat.repr now).data ++ '-' :: rand

/-- `bannedIPs.add(ip)` (a JS `Set`). -/
def addBannedIP (l : List Str) (ip : Str) : List Str := if ip ∈ l then l else l ++ [ip]

/-- The forced attribution of the bigotry branch:
`socket.userHandle || anon-${socket.userColor.slice(1, 4)}`. -/
def revealedHandleOf (ctx : MsgCtx) : Str :=
  match ctx.handle with
  | some h => h
  | none => "anon-".data ++ (ctx.color.drop 1).take 3

/-- The `message` handler.  `payloadText` is the extracted text (`none` for a
missing or non-string text), `score` is the external `sentiment` lexicon's
integer score.  Branch order as in source: rate limit, emptiness, link
rejection, bigotry (mask + forced attribution + ban + disconnect), else
store (bounded pushes) and broadcast. -/
def handleMessage (st : MsgSt) (ctx : MsgCtx) (payloadText : Option Str) (whisper : Bool)
    (now : Nat) (rand : Str) (score : Str → Int) : MsgOut :=
  let rcb := checkRateLimit st.bucket .message now
  let rc := rcb.1
  let st1 : MsgSt := { st with bucket := rcb.2 }
  if !rc.allowed then
    { emits := [⟨.sender, "rate-limited".data, .rateLimitedP "message".data rc.reason⟩],
      disconnected := rc.reason == some "abuse".data, st := st1 }
  else
    match payloadText with
    | none => { emits := [], disconnected := false, st := st1 }
    | some text =>
      let trimmed := (jsTrim text).take 500
      if trimmed = [] then { emits := [], disconnected := false, st := st1 }
      else
        let mi := moderate st1.urlLastIndex trimmed
        let modR := mi.1
        let st2 : MsgSt := { st1 with urlLastIndex := mi.2 }
        if !modR.allowed && modR.reason == some "no-links".data then
          { emits := [⟨.sender, "message-rejected".data, .reasonP "Links are not allowed.".data⟩],
            disconnected := false, st := st2 }
        else if modR.isBigotry then
          let revealedHandle := revealedHandleOf ctx
          let m : Msg := { id := msgId now rand, text := modR.maskedText.getD [],
                           color := colorOr ctx.color, handle := some revealedHandle,
                           tag := ctx.tag, sigil := ctx.sigil, whisper := false, ts := now,
                           flagged := true }
          { emits := [⟨.room st2.room.id, "message".data, .msgP m⟩,
                      ⟨.room st2.room.id, "user-banned".data,
                        .userBannedP ctx.color revealedHandle "bigotry".data⟩,
                      ⟨.sender, "banned".data, .reasonP "Bigotry is not tolerated.".data⟩],
            disconnected := true,
            st := { st2 with bannedIPs := addBannedIP st2.bannedIPs ctx.ip } }
        else
          let room1 := { st2.room with lastMessageTs := now, lastActivity := now,
                                       silenceState := false }
          let eff : Rat := ((score trimmed : Int) : Rat) - energyPenalty trimmed
          let sent' := pushShift MAX_SENTIMENT_HISTORY room1.sentiment eff
          let m : Msg := { id := msgId now rand, text := trimmed, color := colorOr ctx.color,
                           handle := ctx.handle, tag := ctx.tag, sigil := ctx.sigil,
                           whisper := whisper, ts := now }
          let msgs' := pushShift MAX_MESSAGES room1.messages m
          { emits := [⟨.room st2.room.id, "silence".data, .silenceP false none⟩,
                      ⟨.room st2.room.id, "message".data, .msgP m⟩,
                      ⟨.room st2.room.id, "mood".data, .moodP (computeCurrentMood sent')⟩],
            disconnected := false,
            st := { st2 with room := { room1 with sentiment := sent', messages := msgs' } } }

/-- The banned-IP gate of the connection handler (part_006 lines 464-473):
a connection from a banned IP is told `banned` and immediately disconnected. -/
def handleConnection (bannedIPs : List Str) (ip : Str) : List Emit × Bool :=
  if ip ∈ bannedIPs then
    ([⟨.sender, "banned".data, .reasonP "You have been banned.".data⟩], true)
  else ([], false)

/-! The `reveal` handler (part_006 lines 653-691). -/

/-- The in-buffer identity rewrite of the reveal handler: every buffered
message whose `color` matches gets the new `handle`/`tag`/`sigil`. -/
def revealMsgs (color : Str) (newHandle newTag newSigil : Option Str) (msgs : List Msg) :
    List Msg :=
  msgs.map fun m =>
    if m.color = color then { m with handle := newHandle, tag := newTag, sigil := newSigil }
    else m

structure Ident where
  color : Str
  handle : Option Str
  tag : Option Str
  sigil : Option Str
deriving DecidableEq, Repr

/-- `reveal`: validate the payload fields (an invalid sigil keeps the old
one), rewrite matching buffered messages, emit `identity` to the caller and
`identity-revealed` to the room.  Inputs are the extracted payload fields. -/
def handleReveal (user : Ident) (roomId : Str) (msgs : List Msg)
    (handleIn tagIn sigilIn : Option Str) : Ident × List Msg × List Emit :=
  let newHandle := validateHandle handleIn
  let newTag := validateTag tagIn
  let newSigil := match validateSigil sigilIn with
    | some s => some s
    | none => user.sigil
  let color := colorOr user.color
  let msgs' := revealMsgs color newHandle newTag newSigil msgs
  ({ user with handle := newHandle, tag := newTag, sigil := newSigil },
   msgs',
   [⟨.sender, "identity".data, .identityP color newHandle newTag newSigil⟩,
    ⟨.room roomId, "identity-revealed".data, .identityP color newHandle newTag newSigil⟩])

/-! Crosstalk (DM) keys, the room registry and the `delete-room` handler
(part_006 lines 127-130, 873-927). -/

/-- UTF-16 code-unit lexicographic order used by `Array.prototype.sort` on
strings (colors are ASCII `#rrggbb`). -/
def strLe : Str → Str → Bool
  | [], _ => true
  | _ :: _, [] => false
  | a :: as, b :: bs => if a < b then true else if b < a then false else strLe as bs

/-- `getDMKey`: `` `${roomId}:${[color1, color2].sort().join(":")}` ``. -/
def getDMKey (color1 color2 roomId : Str) : Str :=
  let lo := if strLe color1 color2 then color1 else color2
  let hi := if strLe color1 color2 then color2 else color1
  roomId ++ ':' :: (lo ++ ':' :: hi)

/-- Generic JS-`Map.set` on an association list: replace in place if the key
exists, else append (Map iteration order is insertion order). -/
def mapSet (l : List (Str × α)) (k : Str) (v : α) : List (Str × α) :=
  if l.any (fun p => p.1 == k) then l.map (fun p => if p.1 == k then (k, v) else p)
  else l ++ [(k, v)]

/-- JS `Map.delete`. -/
def mapDel (l : List (Str × α)) (k : Str) : List (Str × α) := l.filter (fun p => !(p.1 == k))

/-- JS `Map.get` (with `find?` returning the first binding). -/
def lookupKey (l : List (Str × α)) (k : Str) : Option α :=
  (l.find? (fun p => p.1 == k)).map Prod.snd

structure DMInfo where
  participants : Str × Str
  lastActivity : Nat
deriving DecidableEq, Repr

structure Registry where
  rooms : List (Str × Room)
  activeDMs : List (Str × DMInfo)
  dmCleanupTimers : List (Str × Nat)
deriving DecidableEq, Repr

/-- `getRoomList` composed with the caller's presence fill-in: public rooms
as `(id, title, presence, lastActivity)`. -/
def getRoomList (reg : Registry) (presenceOf : Str → Nat) : List (Str × Str × Nat × Nat) :=
  (reg.rooms.filter (fun p => !p.2.secret)).map
    (fun p => (p.2.id, p.2.title, presenceOf p.2.id, p.2.lastActivity))

/-- The `delete-room` handler.  `presenceOf` is the adapter's distinct-IP
presence count.  Failure order as in source: missing/non-string id, default
room, nonexistent room, nonempty room; otherwise remove the room, clear the
DM timers whose key is scoped to it (and the `activeDMs` entries found via
those timers), notify the requester, and broadcast the updated public room
list if the room was not secret. -/
def handleDeleteRoom (reg : Registry) (payload : Option Str) (presenceOf : Str → Nat) :
    List Emit × Registry :=
  match payload with
  | none => ([⟨.sender, "room-delete-failed".data, .reasonP "Room ID required".data⟩], reg)
  | some target =>
    if target = [] then
      ([⟨.sender, "room-delete-failed".data, .reasonP "Room ID required".data⟩], reg)
    else
      let roomId := getRoomId (some target)
      if roomId = DEFAULT_ROOM_ID then
        ([⟨.sender, "room-delete-failed".data, .reasonP "Cannot delete the main room".data⟩], reg)
      else
        match lookupKey reg.rooms roomId with
        | none => ([⟨.sender, "room-delete-failed".data, .reasonP "Room not found".data⟩], reg)
        | some room =>
          if 0 < presenceOf roomId then
            ([⟨.sender, "room-delete-failed".data,
               .reasonP "Room must be empty to delete".data⟩], reg)
          else
            let pref := roomId ++ [':']
            let cleared := fun (k : Str) =>
              pref.isPrefixOf k && reg.dmCleanupTimers.any (fun q => q.1 == k)
            let reg' : Registry :=
              { rooms := reg.rooms.filter (fun p => !(p.1 == roomId)),
                activeDMs := reg.activeDMs.filter (fun p => !cleared p.1),
                dmCleanupTimers := reg.dmCleanupTimers.filter (fun p => !(pref.isPrefixOf p.1)) }
            ([⟨.sender, "room-deleted".data, .roomDeletedP roomId⟩] ++
              (if room.secret then [] else
                [⟨.allClients, "room-list".data, .roomListP (getRoomList reg' presenceOf)⟩]),
             reg')

/-! The crosstalk expiry subsystem of the `dm` handler (part_006 lines
1006-1022) as a small transition system: a `send` models a DM between the
pair keyed `k` at time `t` (track the pair, clear any pending timer, set a
fresh one 30 s out); a `fire` models a scheduled timeout callback running at
its instant (a cleared or replaced timer never fires, hence the guard). -/

def DM_EXPIRY_MS : Nat := 30000

structure DMSt where
  activeDMs : List (Str × Nat)
  timers : List (Str × Nat)
  ended : List Str
deriving DecidableEq, Repr

inductive DMEv where
  | send (k : Str) (t : Nat)
  | fire (k : Str) (t : Nat)
deriving DecidableEq, Repr

def DMEv.key : DMEv → Str
  | .send k _ => k
  | .fire k _ => k

def dmStep (s : DMSt) (e : DMEv) : DMSt :=
  match e with
  | .send k t =>
    { activeDMs := mapSet s.activeDMs k t,
      timers := mapSet s.timers k (t + DM_EXPIRY_MS),
      ended := s.ended }
  | .fire k t =>
    match lookupKey s.timers k with
    | some expiry =>
      if expiry = t then
        { activeDMs := mapDel s.activeDMs k, timers := mapDel s.timers k,
          ended := s.ended ++ [k] }
      else s
    | none => s

inductive DMReach : DMSt → Prop where
  | init : DMReach ⟨[], [], []⟩
  | step (e : DMEv) {s : DMSt} : DMReach s → DMReach (dmStep s e)

/-- Reachable message buffers of a room: built from empty by the message
handler's bounded push and the reveal handler's in-place rewrite. -/
inductive BufReach : List Msg → Prop where
  | nil : BufReach []
  | push (m : Msg) {b : List Msg} : BufReach b → BufReach (pushShift MAX_MESSAGES b m)
  | reveal (color : Str) (h t s : Option Str) {b : List Msg} :
      BufReach b → BufReach (revealMsgs color h t s b)

/-! Helper lemmas. -/

theorem toLower_of_isRoomChar (c : Char) (h : isRoomChar c = true) : c.toLower = c := by
  unfold isRoomChar at h
  rw [Bool.or_eq_true, Bool.or_eq_true] at h
  rcases h with (hl | hd) | h2
  · simp [Char.isLower] at hl
    have : 97 ≤ c.val.toNat := by exact_mod_cast hl.1
    unfold Char.toLower
    simp [Char.toNat]
    omega
  · simp [Char.isDigit] at hd
    have : c.val.toNat ≤ 57 := by exact_mod_cast hd.2
    unfold Char.toLower
    simp [Char.toNat]
    omega
  · have hc : c = '-' := eq_of_beq h2
    subst hc
    decide

theorem not_isJsSpace_of_isRoomChar (c : Char) (h : isRoomChar c = true) :
    isJsSpace c = false := by
  by_contra hc
  have hs : isJsSpace c = true := by
    cases hw : isJsSpace c
    · exact absurd hw hc
    · rfl
  simp only [isJsSpace, Char.isWhitespace, Bool.or_eq_true, decide_eq_true_eq] at hs
  rcases hs with ((h1 | h1) | h1) | h1 <;> subst h1 <;> exact absurd h (by decide)

theorem dropWhile_eq_self_of_false {p : α → Bool} {l : List α}
    (h : ∀ x ∈ l, p x = false) : l.dropWhile p = l := by
  cases l with
  | nil => rfl
  | cons a as => simp [List.dropWhile, h a (List.mem_cons_self a as)]

theorem jsTrim_of_all_isRoomChar {s : Str} (h : s.all isRoomChar = true) : jsTrim s = s := by
  have hall : ∀ x ∈ s, isRoomChar x = true := by
    intro x hx
    exact List.all_eq_true.mp h x hx
  have h1 : s.dropWhile isJsSpace = s :=
    dropWhile_eq_self_of_false (fun x hx => not_isJsSpace_of_isRoomChar x (hall x hx))
  have h2 : s.reverse.dropWhile isJsSpace = s.reverse :=
    dropWhile_eq_self_of_false
      (fun x hx => not_isJsSpace_of_isRoomChar x (hall x (List.mem_reverse.mp hx)))
  simp [jsTrim, h1, h2]

theorem getRoomId_some_eq (s : Str) :
    getRoomId (some s) =
      (if ((jsTrim (jsToLower s)).filter isRoomChar).take 32 = [] then DEFAULT_ROOM_ID
       else ((jsTrim (jsToLower s)).filter isRoomChar).take 32) := rfl

theorem getRoomId_all (input : Option Str) : (getRoomId input).all isRoomChar = true := by
  cases input with
  | none => decide
  | some s =>
    rw [getRoomId_some_eq]
    split
    · decide
    · refine List.all_eq_true.mpr ?_
      intro x hx
      exact List.of_mem_filter (List.take_subset 32 _ hx)

theorem getRoomId_ne_nil (input : Option Str) : getRoomId input ≠ [] := by
  cases input with
  | none => decide
  | some s =>
    rw [getRoomId_some_eq]
    split
    · decide
    · assumption

theorem getRoomId_length_le (input : Option Str) : (getRoomId input).length ≤ 32 := by
  cases input with
  | none => decide
  | some s =>
    rw [getRoomId_some_eq]
    split
    · decide
    · exact List.length_take_le 32 _

theorem jsToLower_of_all {l : Str} (h : ∀ x ∈ l, isRoomChar x = true) : jsToLower l = l := by
  induction l with
  | nil => rfl
  | cons a as ih =>
    simp only [jsToLower, List.map_cons]
    refine congrArg₂ List.cons ?_ ?_
    · exact toLower_of_isRoomChar a (h a (List.mem_cons_self a as))
    · exact ih (fun x hx => h x (List.mem_cons_of_mem a hx))

theorem normalize_of_clean {s : Str} (hall : s.all isRoomChar = true) (hlen : s.length ≤ 32) :
    ((jsTrim (jsToLower s)).filter isRoomChar).take 32 = s := by
  have hmem : ∀ x ∈ s, isRoomChar x = true := fun x hx => List.all_eq_true.mp hall x hx
  rw [jsToLower_of_all hmem, jsTrim_of_all_isRoomChar hall, List.filter_eq_self.mpr hmem,
    List.take_of_length_le hlen]

/-! C9: the room-id normalizer. -/

/-- C9: `getRoomId` is total and idempotent — for every input it returns a
nonempty string of at most 32 characters drawn from `[a-z0-9-]`, returns the
default id `"main"` for missing/non-string input and for input whose
normalization strips every character, and is a fixed point on its own
output. -/
theorem C9_getRoomId (input : Option Str) :
    getRoomId input ≠ [] ∧
    (getRoomId input).length ≤ 32 ∧
    (getRoomId input).all isRoomChar = true ∧
    getRoomId none = DEFAULT_ROOM_ID ∧
    (∀ s : Str, ((jsTrim (jsToLower s)).filter isRoomChar).take 32 = [] →
      getRoomId (some s) = DEFAULT_ROOM_ID) ∧
    getRoomId (some (getRoomId input)) = getRoomId input := by
  refine ⟨getRoomId_ne_nil input, getRoomId_length_le input, getRoomId_all input, rfl, ?_, ?_⟩
  · intro s hs
    rw [getRoomId_some_eq, if_pos hs]
  · rw [getRoomId_some_eq,
      normalize_of_clean (getRoomId_all input) (getRoomId_length_le input),
      if_neg (getRoomId_ne_nil input)]

/-- C9 witness: the properties evaluated at concrete inputs. -/
theorem C9_getRoomId_witness :
    getRoomId (some "The Well!!".data) ≠ [] ∧
    (getRoomId (some "The Well!!".data)).length ≤ 32 ∧
    (getRoomId (some "The Well!!".data)).all isRoomChar = true ∧
    getRoomId none = DEFAULT_ROOM_ID ∧
    getRoomId (some "!!!".data) = DEFAULT_ROOM_ID ∧
    getRoomId (some (getRoomId (some "The Well!!".data))) = getRoomId (some "The Well!!".data) := by
  obtain ⟨h1, h2, h3, h4, h5, h6⟩ := C9_getRoomId (some "The Well!!".data)
  exact ⟨h1, h2, h3, h4, h5 "!!!".data (by decide), h6⟩

/-! C10: a denied rate-limit check records nothing. -/

theorem Bucket.get_set_self (b : Bucket) (c : RLCat) (l : List Nat) : (b.set c l).get c = l := by
  cases c <;> rfl

theorem Bucket.get_set_other (b : Bucket) (c c' : RLCat) (l : List Nat) (h : c' ≠ c) :
    (b.set c l).get c' = b.get c' := by
  cases c <;> cases c' <;> first | rfl | exact absurd rfl h

theorem Bucket.get_with_total (b : Bucket) (t : List Nat) (c : RLCat) :
    (Bucket.get { b with total := t } c) = b.get c := by
  cases c <;> rfl

/-- On any denied check the returned bucket is the purged-but-unextended one. -/
theorem checkRateLimit_denied (b : Bucket) (cat : RLCat) (now : Nat)
    (h : (checkRateLimit b cat now).1.allowed = false) :
    (checkRateLimit b cat now).2 =
      { b.set cat ((b.get cat).filter (inWindow now (RLwindowMs cat))) with
        total := b.total.filter (inWindow now TOTAL_WINDOW_MS) } := by
  unfold checkRateLimit at h ⊢
  by_cases h1 : TOTAL_MAX ≤ (b.total.filter (inWindow now TOTAL_WINDOW_MS)).length
  · simp [h1]
  · by_cases h2 : RLmax cat ≤ ((b.get cat).filter (inWindow now (RLwindowMs cat))).length
    · simp [h1, h2]
    · simp [h1, h2] at h

/-- C10: whenever `checkRateLimit` denies (reason `"abuse"` or
`"rate-limited"`), no timestamp is appended to the event category's list or
to the cross-category total list: both come back exactly purged (a sublist
of the originals), and every other category is untouched. -/
theorem C10_denied_no_trace (b : Bucket) (cat : RLCat) (now : Nat)
    (h : (checkRateLimit b cat now).1.allowed = false) :
    (checkRateLimit b cat now).2.get cat = (b.get cat).filter (inWindow now (RLwindowMs cat)) ∧
    (checkRateLimit b cat now).2.total = b.total.filter (inWindow now TOTAL_WINDOW_MS) ∧
    List.Sublist ((checkRateLimit b cat now).2.get cat) (b.get cat) ∧
    List.Sublist ((checkRateLimit b cat now).2.total) b.total ∧
    ∀ c : RLCat, c ≠ cat → (checkRateLimit b cat now).2.get c = b.get c := by
  rw [checkRateLimit_denied b cat now h]
  refine ⟨?_, rfl, ?_, ?_, ?_⟩
  · rw [Bucket.get_with_total, Bucket.get_set_self]
  · rw [Bucket.get_with_total, Bucket.get_set_self]
    exact List.filter_sublist _
  · exact List.filter_sublist _
  · intro c hc
    rw [Bucket.get_with_total, Bucket.get_set_other _ _ _ _ hc]

def bW10 : Bucket := { message := List.replicate 15 0 }

/-- C10 witness: a full message window at `now = 0` is denied and leaves the
bucket purged-but-unextended. -/
theorem C10_denied_no_trace_witness :
    (checkRateLimit bW10 .message 0).1.allowed = false ∧
    (checkRateLimit bW10 .message 0).2.get .message =
      (bW10.get .message).filter (inWindow 0 (RLwindowMs .message)) ∧
    (checkRateLimit bW10 .message 0).2.total = bW10.total.filter (inWindow 0 TOTAL_WINDOW_MS) ∧
    (checkRateLimit bW10 .message 0).2.get .typing = bW10.get .typing := by
  have h : (checkRateLimit bW10 .message 0).1.allowed = false := by decide
  obtain ⟨h1, h2, _, _, h5⟩ := C10_denied_no_trace bW10 .message 0 h
  exact ⟨h, h1, h2, h5 .typing (by decide)⟩

/-! C4: the cross-category abuse threshold. -/

/-- A full total window forces the `"abuse"` denial, whatever the category. -/
theorem checkRateLimit_abuse (b : Bucket) (cat : RLCat) (now : Nat)
    (h : TOTAL_MAX ≤ (b.total.filter (inWindow now TOTAL_WINDOW_MS)).length) :
    (checkRateLimit b cat now).1 =
      { allowed := false, reason := some "abuse".data, remaining := some 0 } := by
  unfold checkRateLimit
  simp [h]

/-- C4 (amended): with 200 events in the trailing 60-second total window, the
next rate-limited event of any category is dropped with internal reason
`"abuse"`; the connection is forcibly disconnected when that event is a
`message`, `typing` or `join`, but a `create-room` request is denied with a
`room-create-failed` notice without disconnection and a `dm-typing` event is
dropped silently without disconnection. -/
theorem C4_abuse_dispatch (w : WireCat) (b : Bucket) (now : Nat)
    (h : TOTAL_MAX ≤ (b.total.filter (inWindow now TOTAL_WINDOW_MS)).length) :
    (handlerRateGate w b now).1.allowed = false ∧
    (handlerRateGate w b now).1.reason = some "abuse".data ∧
    ((w = .message ∨ w = .typing ∨ w = .join) → (handlerRateGate w b now).1.disconnected = true) ∧
    ((w = .createRoom ∨ w = .dmTyping) → (handlerRateGate w b now).1.disconnected = false) ∧
    (w = .createRoom → (handlerRateGate w b now).1.emits =
      [⟨.sender, "room-create-failed".data,
        .reasonP "Too many room creations. Please wait.".data⟩]) ∧
    (w = .dmTyping → (handlerRateGate w b now).1.emits = []) := by
  have hrc := checkRateLimit_abuse b (rlCatOf w) now h
  cases w <;> simp [handlerRateGate, hrc]

/-- C4 counterexample: the claim as stated is false — the 201st total event
as a `create-room` is dropped with reason `"abuse"` yet the connection is
not disconnected (and a `dm-typing` likewise). -/
theorem C4_counterexample :
    (handlerRateGate .createRoom { total := List.replicate 200 0 } 0).1.allowed = false ∧
    (handlerRateGate .createRoom { total := List.replicate 200 0 } 0).1.reason =
      some "abuse".data ∧
    (handlerRateGate .createRoom { total := List.replicate 200 0 } 0).1.disconnected = false ∧
    (handlerRateGate .dmTyping { total := List.replicate 200 0 } 0).1.disconnected = false := by
  decide

/-- C4 witness: the amended statement at a concrete full bucket with a
`message` event. -/
theorem C4_abuse_dispatch_witness :
    (handlerRateGate .message { total := List.replicate 200 0 } 0).1.allowed = false ∧
    (handlerRateGate .message { total := List.replicate 200 0 } 0).1.reason =
      some "abuse".data ∧
    (handlerRateGate .message { total := List.replicate 200 0 } 0).1.disconnected = true := by
  obtain ⟨h1, h2, h3, _, _, _⟩ :=
    C4_abuse_dispatch .message { total := List.replicate 200 0 } 0 (by decide)
  exact ⟨h1, h2, h3 (Or.inl rfl)⟩

/-! C6: the rolling message buffer. -/

/-- C6: every reachable room buffer has length at most the fixed capacity 3,
and pushing into a buffer at capacity evicts exactly the oldest entry while
preserving the order of the remaining entries. -/
theorem C6_buffer_bound (b : List Msg) (hb : BufReach b) :
    b.length ≤ MAX_MESSAGES ∧
    ∀ m : Msg, b.length = MAX_MESSAGES → pushShift MAX_MESSAGES b m = b.drop 1 ++ [m] := by
  constructor
  · induction hb with
    | nil => simp
    | push m hb ih =>
      unfold pushShift
      simp only [MAX_MESSAGES] at ih ⊢
      split
      · simp [List.length_drop]
        omega
      · rename_i hle
        simp at hle ⊢
        omega
    | reveal color h t s hb ih => simpa [revealMsgs] using ih
  · intro m hlen
    unfold pushShift
    have hpos : MAX_MESSAGES < (b ++ [m]).length := by
      simp [hlen, MAX_MESSAGES]
    rw [if_pos hpos]
    have hb1 : 1 ≤ b.length := by
      simp [hlen, MAX_MESSAGES]
    rw [List.drop_append_of_le_length hb1]

def mW1 : Msg :=
  { id := "1".data, text := "one".data, color := "#111111".data, handle := none,
    tag := none, sigil := none, whisper := false, ts := 1 }
def mW2 : Msg :=
  { id := "2".data, text := "two".data, color := "#222222".data, handle := none,
    tag := none, sigil := none, whisper := false, ts := 2 }
def mW3 : Msg :=
  { id := "3".data, text := "three".data, color := "#333333".data, handle := none,
    tag := none, sigil := none, whisper := false, ts := 3 }
def mW4 : Msg :=
  { id := "4".data, text := "four".data, color := "#444444".data, handle := none,
    tag := none, sigil := none, whisper := false, ts := 4 }

/-- C6 witness: a concrete reachable buffer of three messages; pushing a
fourth evicts exactly the first. -/
theorem C6_buffer_bound_witness :
    BufReach [mW1, mW2, mW3] ∧
    ([mW1, mW2, mW3] : List Msg).length ≤ MAX_MESSAGES ∧
    pushShift MAX_MESSAGES [mW1, mW2, mW3] mW4 = [mW2, mW3, mW4] := by
  have e : pushShift MAX_MESSAGES (pushShift MAX_MESSAGES
      (pushShift MAX_MESSAGES ([] : List Msg) mW1) mW2) mW3 = [mW1, mW2, mW3] := rfl
  have h3 : BufReach [mW1, mW2, mW3] :=
    e ▸ BufReach.push mW3 (BufReach.push mW2 (BufReach.push mW1 BufReach.nil))
  refine ⟨h3, (C6_buffer_bound _ h3).1, ?_⟩
  rw [(C6_buffer_bound _ h3).2 mW4 rfl]
  rfl

/-! C7: the reveal rewrite's frame. -/

/-- C7: `reveal` rewrites exactly the `handle`/`tag`/`sigil` fields of the
currently-buffered messages whose color equals the caller's color, to the
validated revealed values (also carried by the `identity-revealed`
broadcast); every other field of those messages and every message of a
different color are unchanged, the buffer length is preserved, and the
operation reads and writes nothing but the current buffer (evicted messages
are not inputs). -/
theorem C7_reveal_frame (user : Ident) (roomId : Str) (msgs : List Msg)
    (hIn tIn sIn : Option Str) :
    (handleReveal user roomId msgs hIn tIn sIn).2.1.length = msgs.length ∧
    (∀ i : Nat, ∀ m : Msg, msgs[i]? = some m → m.color = colorOr user.color →
      ((handleReveal user roomId msgs hIn tIn sIn).2.1)[i]? =
        some { m with handle := validateHandle hIn, tag := validateTag tIn,
                      sigil := (match validateSigil sIn with
                                | some s => some s
                                | none => user.sigil) }) ∧
    (∀ i : Nat, ∀ m : Msg, msgs[i]? = some m → m.color ≠ colorOr user.color →
      ((handleReveal user roomId msgs hIn tIn sIn).2.1)[i]? = some m) ∧
    (handleReveal user roomId msgs hIn tIn sIn).2.2 =
      [⟨.sender, "identity".data,
        .identityP (colorOr user.color) (validateHandle hIn) (validateTag tIn)
          (match validateSigil sIn with | some s => some s | none => user.sigil)⟩,
       ⟨.room roomId, "identity-revealed".data,
        .identityP (colorOr user.color) (validateHandle hIn) (validateTag tIn)
          (match validateSigil sIn with | some s => some s | none => user.sigil)⟩] := by
  refine ⟨?_, ?_, ?_, rfl⟩
  · simp [handleReveal, revealMsgs]
  · intro i m hm hc
    simp [handleReveal, revealMsgs, List.getElem?_map, hm, hc]
  · intro i m hm hc
    simp [handleReveal, revealMsgs, List.getElem?_map, hm, hc]

def uW7 : Ident := { color := "#abcdef".data, handle := none, tag := none, sigil := none }
def mW7a : Msg :=
  { id := "a".data, text := "hi".data, color := "#abcdef".data, handle := none,
    tag := none, sigil := none, whisper := false, ts := 10 }
def mW7b : Msg :=
  { id := "b".data, text := "yo".data, color := "#000001".data, handle := some "zz".data,
    tag := none, sigil := none, whisper := true, ts := 11 }

/-- C7 witness: a concrete two-message buffer; the caller's message is
rewritten, the other is untouched. -/
theorem C7_reveal_frame_witness :
    (handleReveal uW7 "main".data [mW7a, mW7b] (some "Neo".data) none
      (some "eye".data)).2.1.length = 2 ∧
    ((handleReveal uW7 "main".data [mW7a, mW7b] (some "Neo".data) none
      (some "eye".data)).2.1)[0]? =
      some { mW7a with handle := validateHandle (some "Neo".data), tag := validateTag none,
                       sigil := (match validateSigil (some "eye".data) with
                                 | some s => some s
                                 | none => uW7.sigil) } ∧
    ((handleReveal uW7 "main".data [mW7a, mW7b] (some "Neo".data) none
      (some "eye".data)).2.1)[1]? = some mW7b := by
  obtain ⟨h1, h2, h3, _⟩ :=
    C7_reveal_frame uW7 "main".data [mW7a, mW7b] (some "Neo".data) none (some "eye".data)
  exact ⟨h1, h2 0 mW7a rfl (by decide), h3 1 mW7b rfl (by decide)⟩

/-! C1: the join-time ghosts snapshot. -/

def msgHello : Msg :=
  { id := "m1".data, text := "hello".data, color := "#123456".data, handle := none,
    tag := none, sigil := none, whisper := false, ts := 1 }
def msgWorld : Msg := { msgHello with text := "world".data }
def roomHello : Room :=
  { id := "main".data, title := "the well".data, secret := false, messages := [msgHello] }
def roomWorld : Room := { roomHello with messages := [msgWorld] }

/-- C1 counterexample: the claim is false on the code — the `ghosts` payload
a joiner receives contains the buffered messages with their literal text
(`"hello"` here), and the snapshot is not independent of the buffered text:
two rooms differing only in a buffered message's text yield different
snapshots. -/
theorem C1_counterexample :
    (sendRoomState roomHello 0 0)[1]? =
      some ⟨.sender, "ghosts".data, .ghostsP [msgHello]⟩ ∧
    msgHello.text = "hello".data ∧
    sendRoomState roomHello 0 0 ≠ sendRoomState roomWorld 0 0 := by
  refine ⟨rfl, rfl, ?_⟩
  decide

/-- C1 (amended): the join-time snapshot emitted on the `ghosts` event is
exactly the last (at most 3) buffered messages of the room, sent verbatim —
a suffix of the buffer, text fields included; the "ghost" marking is the
event name and the no-legible-text rendering is a client-side consumption
contract, not a server-side redaction. -/
theorem C1_ghosts_verbatim (room : Room) (p now : Nat) :
    (sendRoomState room p now)[1]? =
      some ⟨.sender, "ghosts".data, .ghostsP (jsSliceLast MAX_MESSAGES room.messages)⟩ ∧
    List.IsSuffix (jsSliceLast MAX_MESSAGES room.messages) room.messages ∧
    (jsSliceLast MAX_MESSAGES room.messages).length = min MAX_MESSAGES room.messages.length := by
  refine ⟨rfl, List.drop_suffix _ _, ?_⟩
  simp [jsSliceLast, MAX_MESSAGES]
  omega

/-! C2: the bigotry pipeline. -/

theorem moderate_bigotry (i : Nat) (t : Str)
    (h : (moderate i t).1.isBigotry = true) :
    (moderate i t).1.allowed = true ∧
    (moderate i t).1.maskedText = some (maskBigotry t) ∧
    (containsUrlG i t).1 = false := by
  unfold moderate at *
  by_cases hu : (containsUrlG i t).1
  · simp [hu] at h
  · by_cases hb : detectBigotryFound t
    · simp [hu, hb]
    · simp [hu, hb] at h

def roomMainW : Room := { id := "main".data, title := "the well".data, secret := false }
def stW2 : MsgSt := { bucket := {}, urlLastIndex := 0, bannedIPs := [], room := roomMainW }
def ctxW2 : MsgCtx :=
  { ip := "9.9.9.9".data, color := "#aabbcc".data, handle := none, tag := none, sigil := none }
def mC2 : Msg :=
  { id := "7-r".data, text := "n*****".data, color := "#aabbcc".data,
    handle := some "anon-aab".data, tag := none, sigil := none, whisper := false, ts := 7,
    flagged := true }

/-- C2 counterexample: the claim's concrete example is wrong — the message
`"nigger"` is broadcast with text masked as `n*****` (the first character
kept, the remaining five replaced), not `n******`. -/
theorem C2_counterexample :
    (handleMessage stW2 ctxW2 (some "nigger".data) false 7 "r".data (fun _ => 0)).emits.head? =
      some ⟨.room "main".data, "message".data, .msgP mC2⟩ ∧
    mC2.text = "n*****".data ∧
    mC2.text ≠ "n******".data := by
  refine ⟨by decide, rfl, by decide⟩

/-- C2 (amended): every accepted message the moderation pipeline classifies
as bigotry is broadcast to the sender's room with each matched token masked
by `maskBigotry` (first character kept, the rest asterisks — so `"nigger"`
becomes `n*****`) and `flagged = true` under forced attribution, the
sender's IP joins the permanent ban set, the sender is disconnected, and
every subsequent connection attempt from that IP is refused with a `banned`
event. -/
theorem C2_bigotry_flow (st : MsgSt) (ctx : MsgCtx) (text : Str) (whisper : Bool)
    (now : Nat) (rand : Str) (score : Str → Int)
    (hrl : (checkRateLimit st.bucket .message now).1.allowed = true)
    (hne : (jsTrim text).take 500 ≠ [])
    (hbig : (moderate st.urlLastIndex ((jsTrim text).take 500)).1.isBigotry = true) :
    (handleMessage st ctx (some text) whisper now rand score).emits =
      [⟨.room st.room.id, "message".data, .msgP
         { id := msgId now rand,
           text := maskBigotry ((jsTrim text).take 500),
           color := colorOr ctx.color,
           handle := some (revealedHandleOf ctx),
           tag := ctx.tag, sigil := ctx.sigil, whisper := false, ts := now,
           flagged := true }⟩,
       ⟨.room st.room.id, "user-banned".data,
         .userBannedP ctx.color (revealedHandleOf ctx) "bigotry".data⟩,
       ⟨.sender, "banned".data, .reasonP "Bigotry is not tolerated.".data⟩] ∧
    (handleMessage st ctx (some text) whisper now rand score).disconnected = true ∧
    ctx.ip ∈ (handleMessage st ctx (some text) whisper now rand score).st.bannedIPs ∧
    handleConnection (handleMessage st ctx (some text) whisper now rand score).st.bannedIPs
        ctx.ip =
      ([⟨.sender, "banned".data, .reasonP "You have been banned.".data⟩], true) := by
  obtain ⟨ha, hmask, hurl⟩ := moderate_bigotry st.urlLastIndex _ hbig
  have hnolinks :
      (!(moderate st.urlLastIndex ((jsTrim text).take 500)).1.allowed &&
        (moderate st.urlLastIndex ((jsTrim text).take 500)).1.reason ==
          some "no-links".data) = false := by
    rw [ha]
    rfl
  have hmem : ctx.ip ∈ addBannedIP st.bannedIPs ctx.ip := by
    unfold addBannedIP
    split
    · assumption
    · simp
  refine ⟨?_, ?_, ?_, ?_⟩ <;>
    simp only [handleMessage, hrl, Bool.not_true, Bool.false_eq_true, if_false, if_neg hne,
      hnolinks, hbig, if_true, hmask, Option.getD_some] <;>
    simp [hmem, handleConnection]

/-- C2 witness: the amended statement at the concrete input `"nigger"` from
a fresh connection. -/
theorem C2_bigotry_flow_witness :
    (handleMessage stW2 ctxW2 (some "nigger".data) false 7 "r".data (fun _ => 0)).disconnected =
      true ∧
    ctxW2.ip ∈ (handleMessage stW2 ctxW2 (some "nigger".data) false 7 "r".data
      (fun _ => 0)).st.bannedIPs ∧
    handleConnection (handleMessage stW2 ctxW2 (some "nigger".data) false 7 "r".data
        (fun _ => 0)).st.bannedIPs ctxW2.ip =
      ([⟨.sender, "banned".data, .reasonP "You have been banned.".data⟩], true) := by
  obtain ⟨_, h2, h3, h4⟩ :=
    C2_bigotry_flow stW2 ctxW2 "nigger".data false 7 "r".data (fun _ => 0)
      (by decide) (by decide) (by decide)
  exact ⟨h2, h3, h4⟩

/-! C3: URL rejection is stateful and lets every second identical send
through — a code bug. -/

def stW3 : MsgSt := { bucket := {}, urlLastIndex := 0, bannedIPs := [], room := roomMainW }
def ctxW3 : MsgCtx :=
  { ip := "8.8.8.8".data, color := "#cccccc".data, handle := none, tag := none, sigil := none }
def mC3 : Msg :=
  { id := "6-r2".data, text := "http://x.com".data, color := "#cccccc".data, handle := none,
    tag := none, sigil := none, whisper := false, ts := 6 }

/-- C3 (code bug): because the module-level `URL_REGEX` carries the `g` flag,
`containsUrl`'s `.test` call keeps `lastIndex` across messages: the first
`"http://x.com"` send is rejected with `message-rejected` (and sets
`lastIndex` to 12), but the immediately following identical send is NOT
detected — it is broadcast to the room with its text intact, contrary to the
claim (and to the moderation module's own documentation).  The rejected
sender also receives the literal reason `"Links are not allowed."`, not
`"no-links"` (that string is only the internal moderation reason). -/
theorem C3_url_statefulness :
    (handleMessage stW3 ctxW3 (some "http://x.com".data) false 5 "r1".data (fun _ => 0)).emits =
      [⟨.sender, "message-rejected".data, .reasonP "Links are not allowed.".data⟩] ∧
    (handleMessage stW3 ctxW3 (some "http://x.com".data) false 5 "r1".data
      (fun _ => 0)).st.urlLastIndex = 12 ∧
    (handleMessage
        (handleMessage stW3 ctxW3 (some "http://x.com".data) false 5 "r1".data
          (fun _ => 0)).st
        ctxW3 (some "http://x.com".data) false 6 "r2".data (fun _ => 0)).emits.length = 3 ∧
    ((handleMessage
        (handleMessage stW3 ctxW3 (some "http://x.com".data) false 5 "r1".data
          (fun _ => 0)).st
        ctxW3 (some "http://x.com".data) false 6 "r2".data (fun _ => 0)).emits)[0]? =
      some ⟨.room "main".data, "silence".data, .silenceP false none⟩ ∧
    ((handleMessage
        (handleMessage stW3 ctxW3 (some "http://x.com".data) false 5 "r1".data
          (fun _ => 0)).st
        ctxW3 (some "http://x.com".data) false 6 "r2".data (fun _ => 0)).emits)[1]? =
      some ⟨.room "main".data, "message".data, .msgP mC3⟩ := by
  refine ⟨by decide, by decide, by decide, by decide⟩

/-! Association-list lemmas for the JS `Map` model. -/

theorem lookupKey_nil (k : Str) : lookupKey ([] : List (Str × α)) k = none := rfl

theorem lookupKey_cons_pos {p : Str × α} {ps : List (Str × α)} {k : Str}
    (h : (p.1 == k) = true) : lookupKey (p :: ps) k = some p.2 := by
  simp only [lookupKey, List.find?_cons, h]
  rfl

theorem lookupKey_cons_neg {p : Str × α} {ps : List (Str × α)} {k : Str}
    (h : (p.1 == k) = false) : lookupKey (p :: ps) k = lookupKey ps k := by
  simp only [lookupKey, List.find?_cons, h]

theorem find?_map_set {l : List (Str × α)} {k : Str} {v : α}
    (hany : l.any (fun p => p.1 == k) = true) :
    lookupKey (l.map (fun p => if p.1 == k then (k, v) else p)) k = some v := by
  induction l with
  | nil => simp at hany
  | cons p ps ih =>
    simp only [List.map_cons]
    by_cases hp : (p.1 == k) = true
    · rw [if_pos hp]
      exact lookupKey_cons_pos (by simp)
    · rw [if_neg hp]
      have hany' : ps.any (fun q => q.1 == k) = true := by
        simp only [List.any_cons, hp, Bool.false_or] at hany
        exact hany
      rw [lookupKey_cons_neg (Bool.eq_false_iff.mpr hp)]
      exact ih hany'

theorem lookupKey_append_singleton_none {l : List (Str × α)} {k : Str} {v : α}
    (hnone : l.any (fun p => p.1 == k) = false) :
    lookupKey (l ++ [(k, v)]) k = some v := by
  induction l with
  | nil => exact lookupKey_cons_pos (by simp)
  | cons p ps ih =>
    simp only [List.any_cons, Bool.or_eq_false_iff] at hnone
    rw [List.cons_append, lookupKey_cons_neg hnone.1]
    exact ih hnone.2

theorem lookupKey_mapSet_self (l : List (Str × α)) (k : Str) (v : α) :
    lookupKey (mapSet l k v) k = some v := by
  unfold mapSet
  by_cases hany : l.any (fun p => p.1 == k) = true
  · rw [if_pos hany]
    exact find?_map_set hany
  · rw [if_neg hany]
    exact lookupKey_append_singleton_none (Bool.eq_false_iff.mpr hany)

theorem lookupKey_map_replace_ne (l : List (Str × α)) (k k' : Str) (v : α)
    (h : (k == k') = false) :
    lookupKey (l.map (fun p => if p.1 == k then (k, v) else p)) k' = lookupKey l k' := by
  induction l with
  | nil => rfl
  | cons p ps ih =>
    simp only [List.map_cons]
    by_cases hp : (p.1 == k) = true
    · rw [if_pos hp]
      have hp' : (p.1 == k') = false := by
        rw [eq_of_beq hp]
        exact h
      rw [lookupKey_cons_neg h, lookupKey_cons_neg hp']
      exact ih
    · rw [if_neg hp]
      cases hq : (p.1 == k')
      · rw [lookupKey_cons_neg hq, lookupKey_cons_neg hq]
        exact ih
      · rw [lookupKey_cons_pos hq, lookupKey_cons_pos hq]

theorem lookupKey_append_single_ne (l : List (Str × α)) (k k' : Str) (v : α)
    (h : (k == k') = false) :
    lookupKey (l ++ [(k, v)]) k' = lookupKey l k' := by
  induction l with
  | nil =>
    show lookupKey [(k, v)] k' = none
    rw [lookupKey_cons_neg h]
    rfl
  | cons p ps ih =>
    rw [List.cons_append]
    cases hq : (p.1 == k')
    · rw [lookupKey_cons_neg hq, lookupKey_cons_neg hq]
      exact ih
    · rw [lookupKey_cons_pos hq, lookupKey_cons_pos hq]

theorem beq_str_false_of_ne {k k' : Str} (h : k' ≠ k) : (k == k') = false := by
  cases hq : (k == k')
  · rfl
  · exact absurd (eq_of_beq hq).symm h

theorem lookupKey_mapSet_ne (l : List (Str × α)) (k k' : Str) (v : α) (h : k' ≠ k) :
    lookupKey (mapSet l k v) k' = lookupKey l k' := by
  unfold mapSet
  split
  · exact lookupKey_map_replace_ne l k k' v (beq_str_false_of_ne h)
  · exact lookupKey_append_single_ne l k k' v (beq_str_false_of_ne h)

theorem lookupKey_mapDel_self (l : List (Str × α)) (k : Str) :
    lookupKey (mapDel l k) k = none := by
  unfold lookupKey mapDel
  rw [List.find?_eq_none.mpr]
  · rfl
  · intro p hp hbeq
    have := (List.mem_filter.mp hp).2
    rw [hbeq] at this
    simp at this

theorem lookupKey_mapDel_ne (l : List (Str × α)) (k k' : Str) (h : k' ≠ k) :
    lookupKey (mapDel l k) k' = lookupKey l k' := by
  unfold mapDel
  induction l with
  | nil => rfl
  | cons p ps ih =>
    rw [List.filter_cons]
    by_cases hp : (p.1 == k) = true
    · rw [if_neg (by simp [hp])]
      have hp' : (p.1 == k') = false := by
        rw [eq_of_beq hp]
        exact beq_str_false_of_ne h
      rw [lookupKey_cons_neg hp']
      exact ih
    · rw [if_pos (by simp [hp])]
      cases hq : (p.1 == k')
      · rw [lookupKey_cons_neg hq, lookupKey_cons_neg hq]
        exact ih
      · rw [lookupKey_cons_pos hq, lookupKey_cons_pos hq]

def keysOf (l : List (Str × α)) : List Str := l.map Prod.fst

theorem keysOf_mapSet_present {l : List (Str × α)} {k : Str} {v : α}
    (hany : l.any (fun p => p.1 == k) = true) : keysOf (mapSet l k v) = keysOf l := by
  unfold mapSet
  rw [if_pos hany]
  unfold keysOf
  rw [List.map_map]
  refine List.map_congr_left ?_
  intro p hp
  by_cases hq : (p.1 == k) = true
  · simp only [Function.comp_apply, if_pos hq]
    exact (eq_of_beq hq).symm
  · simp only [Function.comp_apply, if_neg hq]

theorem mem_keysOf_mapSet (l : List (Str × α)) (k : Str) (v : α) :
    k ∈ keysOf (mapSet l k v) := by
  by_cases hany : l.any (fun p => p.1 == k) = true
  · rw [keysOf_mapSet_present hany]
    rcases List.any_eq_true.mp hany with ⟨p, hp, hbeq⟩
    exact (eq_of_beq hbeq) ▸ List.mem_map_of_mem Prod.fst hp
  · unfold mapSet
    rw [if_neg hany]
    unfold keysOf
    rw [List.map_append]
    exact List.mem_append_right _ (List.mem_singleton.mpr rfl)

theorem nodup_keysOf_mapSet {l : List (Str × α)} {k : Str} {v : α}
    (h : (keysOf l).Nodup) : (keysOf (mapSet l k v)).Nodup := by
  by_cases hany : l.any (fun p => p.1 == k) = true
  · rw [keysOf_mapSet_present hany]
    exact h
  · unfold mapSet
    rw [if_neg hany]
    unfold keysOf at h ⊢
    rw [List.map_append]
    have hnot : k ∉ l.map Prod.fst := by
      intro hmem
      rcases List.mem_map.mp hmem with ⟨p, hp, hfst⟩
      have : (p.1 == k) = true := beq_iff_eq.mpr hfst
      exact absurd (List.any_eq_true.mpr ⟨p, hp, this⟩) hany
    rw [List.nodup_append]
    refine ⟨h, List.nodup_singleton k, ?_⟩
    intro a ha hb
    rw [List.mem_singleton.mp hb] at ha
    exact hnot ha

theorem nodup_keysOf_mapDel {l : List (Str × α)} {k : Str}
    (h : (keysOf l).Nodup) : (keysOf (mapDel l k)).Nodup := by
  unfold mapDel keysOf at *
  exact h.sublist (List.Sublist.map Prod.fst (List.filter_sublist l))

def countKey (l : List (Str × α)) (k : Str) : Nat := (l.filter (fun p => p.1 == k)).length

theorem countKey_cons (p : Str × α) (ps : List (Str × α)) (k : Str) :
    countKey (p :: ps) k = (if (p.1 == k) = true then 1 else 0) + countKey ps k := by
  unfold countKey
  rw [List.filter_cons]
  split
  · simp only [List.length_cons]
    omega
  · omega

theorem countKey_eq_zero_of_not_mem {l : List (Str × α)} {k : Str}
    (h : k ∉ keysOf l) : countKey l k = 0 := by
  induction l with
  | nil => rfl
  | cons p ps ih =>
    unfold keysOf at h
    simp only [List.map_cons, List.mem_cons] at h
    push_neg at h
    have hp : (p.1 == k) = false := by
      cases hq : (p.1 == k)
      · rfl
      · exact absurd (eq_of_beq hq).symm h.1
    rw [countKey_cons, if_neg (by simp [hp])]
    have := ih (by unfold keysOf; exact h.2)
    omega

theorem countKey_eq_one {l : List (Str × α)} {k : Str}
    (hnd : (keysOf l).Nodup) (hmem : k ∈ keysOf l) : countKey l k = 1 := by
  induction l with
  | nil => simp [keysOf] at hmem
  | cons p ps ih =>
    unfold keysOf at hnd hmem
    simp only [List.map_cons, List.nodup_cons] at hnd
    simp only [List.map_cons, List.mem_cons] at hmem
    rcases hmem with hk | hk
    · have hp : (p.1 == k) = true := beq_iff_eq.mpr hk.symm
      have h0 : countKey ps k = 0 := by
        refine countKey_eq_zero_of_not_mem ?_
        unfold keysOf
        rw [hk]
        exact hnd.1
      rw [countKey_cons, if_pos hp, h0]
    · have hp : (p.1 == k) = false := by
        cases hq : (p.1 == k)
        · rfl
        · refine absurd ?_ hnd.1
          rw [eq_of_beq hq]
          exact hk
      have := ih hnd.2 (by unfold keysOf; exact hk)
      rw [countKey_cons, if_neg (by simp [hp]), this]

/-! C8: the crosstalk expiry machine. -/

theorem dm_nodup_of_reach (s : DMSt) (h : DMReach s) :
    (keysOf s.timers).Nodup ∧ (keysOf s.activeDMs).Nodup := by
  induction h with
  | init => exact ⟨List.nodup_nil, List.nodup_nil⟩
  | step e hprev ih =>
    rename_i st
    cases e with
    | send k t => exact ⟨nodup_keysOf_mapSet ih.1, nodup_keysOf_mapSet ih.2⟩
    | fire k t =>
      simp only [dmStep]
      cases hl : lookupKey st.timers k with
      | none => exact ih
      | some expiry =>
        by_cases he : expiry = t
        · subst he
          simp only [if_pos rfl]
          exact ⟨nodup_keysOf_mapDel ih.1, nodup_keysOf_mapDel ih.2⟩
        · simp only [if_neg he]
          exact ih

theorem dmStep_frame (s : DMSt) (e : DMEv) (k : Str) (h : DMEv.key e ≠ k) :
    lookupKey (dmStep s e).timers k = lookupKey s.timers k ∧
    lookupKey (dmStep s e).activeDMs k = lookupKey s.activeDMs k ∧
    (dmStep s e).ended.count k = s.ended.count k := by
  cases e with
  | send q t =>
    have hq : k ≠ q := fun he => h (by simp [DMEv.key, he])
    exact ⟨lookupKey_mapSet_ne _ _ _ _ hq, lookupKey_mapSet_ne _ _ _ _ hq, rfl⟩
  | fire q t =>
    have hq : k ≠ q := fun he => h (by simp [DMEv.key, he])
    simp only [dmStep]
    cases hl : lookupKey s.timers q with
    | none => exact ⟨rfl, rfl, rfl⟩
    | some expiry =>
      by_cases he : expiry = t
      · simp only [he, if_true]
        refine ⟨lookupKey_mapDel_ne _ _ _ hq, lookupKey_mapDel_ne _ _ _ hq, ?_⟩
        simp [List.count_append, List.count_singleton]
        intro heq
        exact absurd heq.symm hq
      · simp [if_neg he]

theorem dmSteps_frame (tr : List DMEv) (k : Str) (htr : ∀ e ∈ tr, DMEv.key e ≠ k) :
    ∀ s : DMSt,
      lookupKey (tr.foldl dmStep s).timers k = lookupKey s.timers k ∧
      lookupKey (tr.foldl dmStep s).activeDMs k = lookupKey s.activeDMs k ∧
      (tr.foldl dmStep s).ended.count k = s.ended.count k := by
  induction tr with
  | nil => exact fun s => ⟨rfl, rfl, rfl⟩
  | cons e es ih =>
    intro s
    have he : DMEv.key e ≠ k := htr e (List.mem_cons_self e es)
    have hes : ∀ x ∈ es, DMEv.key x ≠ k := fun x hx => htr x (List.mem_cons_of_mem e hx)
    have h1 := dmStep_frame s e k he
    have h2 := ih hes (dmStep s e)
    simp only [List.foldl_cons]
    exact ⟨h2.1.trans h1.1, h2.2.1.trans h1.2.1, h2.2.2.trans h1.2.2⟩

theorem dmStep_fire_pending (s : DMSt) (k : Str) (t : Nat)
    (h : lookupKey s.timers k = some t) :
    dmStep s (.fire k t) =
      { activeDMs := mapDel s.activeDMs k, timers := mapDel s.timers k,
        ended := s.ended ++ [k] } := by
  simp [dmStep, h]

theorem dmReach_send (s : DMSt) (hs : DMReach s) (k : Str) (t : Nat) :
    DMReach (dmStep s (.send k t)) := DMReach.step _ hs

/-- C8: in every reachable state each DM pair has at most one pending expiry
timer; a DM to pair `k` at time `t` (re)sets that single timer to `t + 30000`;
after any further events that do not concern the pair, the timer firing at
its instant broadcasts exactly one `crosstalk-ended` and removes the pair
from both `activeDMs` and `dmCleanupTimers`; a later firing for the pair is
a no-op (no second `crosstalk-ended`). -/
theorem C8_dm_expiry (s : DMSt) (hs : DMReach s) (k : Str) (t : Nat) (tr : List DMEv)
    (htr : ∀ e ∈ tr, DMEv.key e ≠ k) :
    countKey (dmStep s (.send k t)).timers k = 1 ∧
    lookupKey (dmStep s (.send k t)).timers k = some (t + DM_EXPIRY_MS) ∧
    lookupKey (tr.foldl dmStep (dmStep s (.send k t))).timers k = some (t + DM_EXPIRY_MS) ∧
    (dmStep (tr.foldl dmStep (dmStep s (.send k t))) (.fire k (t + DM_EXPIRY_MS))).ended =
      (tr.foldl dmStep (dmStep s (.send k t))).ended ++ [k] ∧
    lookupKey (dmStep (tr.foldl dmStep (dmStep s (.send k t)))
      (.fire k (t + DM_EXPIRY_MS))).activeDMs k = none ∧
    lookupKey (dmStep (tr.foldl dmStep (dmStep s (.send k t)))
      (.fire k (t + DM_EXPIRY_MS))).timers k = none ∧
    (∀ t' : Nat,
      dmStep (dmStep (tr.foldl dmStep (dmStep s (.send k t))) (.fire k (t + DM_EXPIRY_MS)))
          (.fire k t') =
        dmStep (tr.foldl dmStep (dmStep s (.send k t))) (.fire k (t + DM_EXPIRY_MS))) := by
  have hnd : (keysOf (dmStep s (.send k t)).timers).Nodup :=
    (dm_nodup_of_reach _ (dmReach_send s hs k t)).1
  have h1 : lookupKey (dmStep s (.send k t)).timers k = some (t + DM_EXPIRY_MS) :=
    lookupKey_mapSet_self _ _ _
  have hcount : countKey (dmStep s (.send k t)).timers k = 1 :=
    countKey_eq_one hnd (mem_keysOf_mapSet _ _ _)
  have hfr := dmSteps_frame tr k htr (dmStep s (.send k t))
  have h2 : lookupKey (tr.foldl dmStep (dmStep s (.send k t))).timers k =
      some (t + DM_EXPIRY_MS) := hfr.1.trans h1
  have hfire := dmStep_fire_pending (tr.foldl dmStep (dmStep s (.send k t))) k
    (t + DM_EXPIRY_MS) h2
  refine ⟨hcount, h1, h2, ?_, ?_, ?_, ?_⟩
  · rw [hfire]
  · rw [hfire]
    exact lookupKey_mapDel_self _ _
  · rw [hfire]
    exact lookupKey_mapDel_self _ _
  · intro t'
    have hgen : ∀ s3 : DMSt, lookupKey s3.timers k = none → dmStep s3 (.fire k t') = s3 := by
      intro s3 hnone
      simp [dmStep, hnone]
    refine hgen _ ?_
    rw [hfire]
    exact lookupKey_mapDel_self _ _

def kW8 : Str := getDMKey "#bbbbbb".data "#aaaaaa".data "main".data
def trW8 : List DMEv :=
  [.send "main:#cc0000:#dd0000".data 40, .fire "main:#cc0000:#dd0000".data 70]

/-- C8 witness: a concrete pair, a concrete interleaving for another pair,
and the timer firing exactly once at its 30-second instant. -/
theorem C8_dm_expiry_witness :
    countKey (dmStep ⟨[], [], []⟩ (.send kW8 100)).timers kW8 = 1 ∧
    lookupKey (trW8.foldl dmStep (dmStep ⟨[], [], []⟩ (.send kW8 100))).timers kW8 =
      some (100 + DM_EXPIRY_MS) ∧
    (dmStep (trW8.foldl dmStep (dmStep ⟨[], [], []⟩ (.send kW8 100)))
      (.fire kW8 (100 + DM_EXPIRY_MS))).ended =
      (trW8.foldl dmStep (dmStep ⟨[], [], []⟩ (.send kW8 100))).ended ++ [kW8] ∧
    lookupKey (dmStep (trW8.foldl dmStep (dmStep ⟨[], [], []⟩ (.send kW8 100)))
      (.fire kW8 (100 + DM_EXPIRY_MS))).timers kW8 = none := by
  obtain ⟨h1, _, h3, h4, _, h6, _⟩ :=
    C8_dm_expiry ⟨[], [], []⟩ DMReach.init kW8 100 trW8 (by decide)
  exact ⟨h1, h3, h4, h6⟩

/-! C5: `delete-room`. -/

theorem isRoomChar_ne_colon (c : Char) (h : isRoomChar c = true) : c ≠ ':' := by
  intro he
  subst he
  exact absurd h (by decide)

theorem beq_char_false_of_ne {a b : Char} (h : a ≠ b) : (a == b) = false := by
  cases hq : (a == b)
  · rfl
  · exact absurd (eq_of_beq hq) h

/-- For colon-free `r1`, `r2`, the string `r2 ++ ":"` is a prefix of
`r1 ++ ":" ++ x` exactly when `r2 = r1`. -/
theorem isPrefixOf_colon_iff (r2 r1 x : Str)
    (h1 : ∀ c ∈ r1, c ≠ ':') (h2 : ∀ c ∈ r2, c ≠ ':') :
    ((r2 ++ [':']).isPrefixOf (r1 ++ ':' :: x) = true) ↔ r2 = r1 := by
  induction r2 generalizing r1 with
  | nil =>
    cases r1 with
    | nil => simp [List.isPrefixOf, List.isPrefixOf_cons₂]
    | cons a as =>
      have ha : (':' == a) = false :=
        beq_char_false_of_ne (fun he => h1 a (List.mem_cons_self a as) he.symm)
      simp [List.cons_append, List.isPrefixOf_cons₂, ha]
  | cons b bs ih =>
    cases r1 with
    | nil =>
      have hb : (b == ':') = false :=
        beq_char_false_of_ne (h2 b (List.mem_cons_self b bs))
      simp [List.cons_append, List.isPrefixOf_cons₂, hb]
    | cons a as =>
      have h1' : ∀ c ∈ as, c ≠ ':' := fun c hc => h1 c (List.mem_cons_of_mem a hc)
      have h2' : ∀ c ∈ bs, c ≠ ':' := fun c hc => h2 c (List.mem_cons_of_mem b hc)
      simp only [List.cons_append, List.isPrefixOf_cons₂, Bool.and_eq_true, beq_iff_eq]
      rw [ih as h1' h2']
      simp [List.cons_eq_cons]

/-- A room id is a prefix (with the colon separator) of a DM key exactly
when the key is scoped to that room — both ids colon-free. -/
theorem getDMKey_roomPrefix (c1 c2 r roomId : Str)
    (hr : r.all isRoomChar = true) (hR : roomId.all isRoomChar = true) :
    ((roomId ++ [':']).isPrefixOf (getDMKey c1 c2 r) = true) ↔ roomId = r := by
  simp only [getDMKey]
  exact isPrefixOf_colon_iff roomId r _
    (fun c hc => isRoomChar_ne_colon c (List.all_eq_true.mp hr c hc))
    (fun c hc => isRoomChar_ne_colon c (List.all_eq_true.mp hR c hc))

/-- A DM key always carries its own room's colon prefix. -/
theorem getDMKey_self_prefix (c1 c2 r : Str) :
    ((r ++ [':']).isPrefixOf (getDMKey c1 c2 r)) = true := by
  simp only [getDMKey]
  induction r with
  | nil => simp [List.isPrefixOf_cons₂]
  | cons a as ih =>
    simp only [List.cons_append, List.isPrefixOf_cons₂, Bool.and_eq_true]
    exact ⟨by simp, ih⟩

/-- C5 (amended): `delete-room` rejects the default room with
`"Cannot delete the main room"`, a nonexistent room with `"Room not found"`,
and a room with nonzero presence with `"Room must be empty to delete"` —
each failure emitted only to the requester, the registry untouched;
otherwise the room is removed from the registry, every crosstalk session
scoped to the room (each active session also holding a cleanup timer)
disappears from both `activeDMs` and `dmCleanupTimers` while sessions of
other rooms are retained, and the requester is notified `room-deleted`. -/
theorem C5_delete_room (reg : Registry) (presenceOf : Str → Nat) (target : Str)
    (hne : target ≠ [])
    (hsub : ∀ p ∈ reg.activeDMs, ∃ n : Nat, (p.1, n) ∈ reg.dmCleanupTimers) :
    (getRoomId (some target) = DEFAULT_ROOM_ID →
      handleDeleteRoom reg (some target) presenceOf =
        ([⟨.sender, "room-delete-failed".data,
           .reasonP "Cannot delete the main room".data⟩], reg)) ∧
    (getRoomId (some target) ≠ DEFAULT_ROOM_ID →
      lookupKey reg.rooms (getRoomId (some target)) = none →
      handleDeleteRoom reg (some target) presenceOf =
        ([⟨.sender, "room-delete-failed".data, .reasonP "Room not found".data⟩], reg)) ∧
    (∀ room : Room, getRoomId (some target) ≠ DEFAULT_ROOM_ID →
      lookupKey reg.rooms (getRoomId (some target)) = some room →
      0 < presenceOf (getRoomId (some target)) →
      handleDeleteRoom reg (some target) presenceOf =
        ([⟨.sender, "room-delete-failed".data,
           .reasonP "Room must be empty to delete".data⟩], reg)) ∧
    (∀ room : Room, getRoomId (some target) ≠ DEFAULT_ROOM_ID →
      lookupKey reg.rooms (getRoomId (some target)) = some room →
      presenceOf (getRoomId (some target)) = 0 →
      lookupKey (handleDeleteRoom reg (some target) presenceOf).2.rooms
          (getRoomId (some target)) = none ∧
      (∀ c1 c2 : Str,
        lookupKey (handleDeleteRoom reg (some target) presenceOf).2.dmCleanupTimers
            (getDMKey c1 c2 (getRoomId (some target))) = none ∧
        lookupKey (handleDeleteRoom reg (some target) presenceOf).2.activeDMs
            (getDMKey c1 c2 (getRoomId (some target))) = none) ∧
      (∀ c1 c2 r' : Str, r'.all isRoomChar = true → r' ≠ getRoomId (some target) →
        ∀ info : DMInfo, (getDMKey c1 c2 r', info) ∈ reg.activeDMs →
          (getDMKey c1 c2 r', info) ∈
            (handleDeleteRoom reg (some target) presenceOf).2.activeDMs) ∧
      (handleDeleteRoom reg (some target) presenceOf).1.head? =
        some ⟨.sender, "room-deleted".data, .roomDeletedP (getRoomId (some target))⟩) := by
  refine ⟨?_, ?_, ?_, ?_⟩
  · intro hmain
    simp [handleDeleteRoom, hne, hmain]
  · intro hmain hnone
    simp [handleDeleteRoom, hne, hmain, hnone]
  · intro room hmain hsome hpres
    simp [handleDeleteRoom, hne, hmain, hsome, hpres]
  · intro room hmain hsome hpres
    have hreduce :
        (handleDeleteRoom reg (some target) presenceOf).2 =
          { rooms := reg.rooms.filter (fun p => !(p.1 == getRoomId (some target))),
            activeDMs := reg.activeDMs.filter (fun p =>
              !((getRoomId (some target) ++ [':']).isPrefixOf p.1 &&
                reg.dmCleanupTimers.any (fun q => q.1 == p.1))),
            dmCleanupTimers := reg.dmCleanupTimers.filter (fun p =>
              !((getRoomId (some target) ++ [':']).isPrefixOf p.1)) } := by
      simp [handleDeleteRoom, hne, hmain, hsome, hpres]
    have hemits :
        (handleDeleteRoom reg (some target) presenceOf).1 =
          [⟨.sender, "room-deleted".data, .roomDeletedP (getRoomId (some target))⟩] ++
            (if room.secret then [] else
              [⟨.allClients, "room-list".data,
                .roomListP (getRoomList (handleDeleteRoom reg (some target) presenceOf).2
                  presenceOf)⟩]) := by
      simp [handleDeleteRoom, hne, hmain, hsome, hpres]
    refine ⟨?_, ?_, ?_, ?_⟩
    · rw [hreduce]
      unfold lookupKey
      rw [List.find?_eq_none.mpr]
      · rfl
      · intro p hp hbeq
        have hkeep := (List.mem_filter.mp hp).2
        rw [eq_of_beq hbeq] at hkeep
        simp at hkeep
    · intro c1 c2
      constructor
      · rw [hreduce]
        unfold lookupKey
        rw [List.find?_eq_none.mpr]
        · rfl
        · intro p hp hbeq
          have hkeep := (List.mem_filter.mp hp).2
          rw [eq_of_beq hbeq, getDMKey_self_prefix] at hkeep
          simp at hkeep
      · rw [hreduce]
        unfold lookupKey
        rw [List.find?_eq_none.mpr]
        · rfl
        · intro p hp hbeq
          have hmem := (List.mem_filter.mp hp).1
          have hkeep := (List.mem_filter.mp hp).2
          rcases hsub p hmem with ⟨n, hn⟩
          have hany : reg.dmCleanupTimers.any (fun q => q.1 == p.1) = true :=
            List.any_eq_true.mpr ⟨(p.1, n), hn, by simp⟩
          rw [eq_of_beq hbeq, getDMKey_self_prefix] at hkeep
          rw [eq_of_beq hbeq] at hany
          rw [hany] at hkeep
          simp at hkeep
    · intro c1 c2 r' hall hner info hmem
      rw [hreduce]
      refine List.mem_filter.mpr ⟨hmem, ?_⟩
      have hpref : ((getRoomId (some target) ++ [':']).isPrefixOf (getDMKey c1 c2 r')) = false := by
        cases hq : ((getRoomId (some target) ++ [':']).isPrefixOf (getDMKey c1 c2 r'))
        · rfl
        · have := (getDMKey_roomPrefix c1 c2 r' (getRoomId (some target)) hall
            (getRoomId_all (some target))).mp hq
          exact absurd this.symm hner
      simp [hpref]
    · rw [hemits]
      rfl

def denRoom : Room := { id := "den".data, title := "den".data, secret := false }
def mainRoomW : Room := { id := "main".data, title := "the well".data, secret := false }
def dmW5 : Str := getDMKey "#aaaaaa".data "#bbbbbb".data "den".data
def infoW5 : DMInfo := { participants := ("#aaaaaa".data, "#bbbbbb".data), lastActivity := 1 }
def regW5 : Registry :=
  { rooms := [("main".data, mainRoomW), ("den".data, denRoom)],
    activeDMs := [(dmW5, infoW5)],
    dmCleanupTimers := [(dmW5, 31000)] }
def presW5 : Str → Nat := fun _ => 0

/-- C5 witness: deleting `"main"` fails with the fixed reason; deleting the
empty room `"den"` removes it and its crosstalk session from both maps. -/
theorem C5_delete_room_witness :
    handleDeleteRoom regW5 (some "main".data) presW5 =
      ([⟨.sender, "room-delete-failed".data,
         .reasonP "Cannot delete the main room".data⟩], regW5) ∧
    lookupKey (handleDeleteRoom regW5 (some "den".data) presW5).2.rooms "den".data = none ∧
    lookupKey (handleDeleteRoom regW5 (some "den".data) presW5).2.dmCleanupTimers dmW5 = none ∧
    lookupKey (handleDeleteRoom regW5 (some "den".data) presW5).2.activeDMs dmW5 = none := by
  have hsub : ∀ p ∈ regW5.activeDMs, ∃ n : Nat, (p.1, n) ∈ regW5.dmCleanupTimers := by
    intro p hp
    have h : p = (dmW5, infoW5) := List.mem_singleton.mp hp
    refine ⟨31000, ?_⟩
    rw [h]
    exact List.mem_singleton.mpr rfl
  obtain ⟨hmainC, _, _, _⟩ := C5_delete_room regW5 presW5 "main".data (by decide) hsub
  obtain ⟨_, _, _, hsucc⟩ := C5_delete_room regW5 presW5 "den".data (by decide) hsub
  have hrid : getRoomId (some "den".data) = "den".data := by decide
  have hsome : lookupKey regW5.rooms (getRoomId (some "den".data)) = some denRoom := by decide
  obtain ⟨hrooms, hdm, _, _⟩ := hsucc denRoom (by decide) hsome rfl
  rw [hrid] at hrooms
  have hdmT := (hdm "#aaaaaa".data "#bbbbbb".data).1
  have hdmA := (hdm "#aaaaaa".data "#bbbbbb".data).2
  rw [hrid] at hdmT hdmA
  exact ⟨hmainC (by decide), hrooms, hdmT, hdmA⟩

/-- C5 counterexample: the claim's quoted failure reason for a nonempty room
is not the emitted string — the code emits `"Room must be empty to delete"`,
of which the claim's `"must be empty to delete"` is only a fragment. -/
theorem C5_counterexample :
    (handleDeleteRoom regW5 (some "den".data)
        (fun r => if r = "den".data then 1 else 0)).1 =
      [⟨.sender, "room-delete-failed".data,
        .reasonP "Room must be empty to delete".data⟩] ∧
    "Room must be empty to delete".data ≠ "must be empty to delete".data := by
  exact ⟨by decide, by decide⟩

end Witchat
